import Mathlib

/-!
Shallow embedding of the Market-AI ingestion worker (src/Worker.py).

Persistent tables are lists of rows; SQL upserts become list transformations
keyed by the table's unique index.  Numeric values are rationals (the Python
floats in play are decimal literals).  Network fetch outcomes are explicit
inputs to the adapter functions, so that the try/except structure of the
Python code becomes case analysis on the outcome.
-/

namespace MarketWorker

/-! ## Data model: rows of the five persisted tables (ensure_schema) -/

/-- Row of `market_bars` (unique index on (symbol, ts)). -/
structure BarRow where
  symbol : String
  ts : Nat
  open_ : ℚ
  high : ℚ
  low : ℚ
  close : ℚ
  volume : ℚ
  deriving Repr, DecidableEq

/-- Row of `etf_flows` (unique index on (date, fund)). -/
structure FlowRow where
  date : String
  fund : String
  flow_musd : ℚ
  deriving Repr, DecidableEq

/-- Row of `sec_filings` (unique index on (filed_at, form, company, title)).
All indexed columns are nullable, modelled with Option. -/
structure FilingRow where
  filed_at : Option Nat
  form : Option String
  company : Option String
  title : Option String
  link : Option String
  deriving Repr, DecidableEq

/-- Payload of an `alerts` row: the worker writes either an ETF net-flow
alert payload or the end-of-run summary. -/
inductive AlertPayload where
  | etfNetFlow (date : String) (net_musd : ℚ)
  | workerSummary (results : List (Bool × String))
  deriving Repr, DecidableEq

/-- The persisted store plus the observable webhook effect log.
`outbox` records the texts actually delivered to the configured webhook. -/
structure DB where
  market_bars : List BarRow
  etf_flows : List FlowRow
  sec_filings : List FilingRow
  alerts : List (String × AlertPayload)
  outbox : List String
  schemaReady : Bool
  deriving Repr, DecidableEq

def emptyDB : DB := ⟨[], [], [], [], [], false⟩

/-- Environment-derived knobs read at process start. -/
structure Config where
  flowAlertMusd : ℚ
  webhookUrl : Option String
  deriving Repr, DecidableEq

/-- Defaults: FLOW_ALERT_MUSD = 500, no webhook configured. -/
def defaultConfig : Config := ⟨500, none⟩

/-! ## DB helpers (Worker.py DB HELPERS section) -/

/-- ensure_schema: idempotent schema creation (no data rows touched). -/
def ensure_schema (db : DB) : DB := { db with schemaReady := true }

/-- Key predicate of the unique index idx_bars_symbol_ts. -/
def barKeyIs (symbol : String) (ts : Nat) (r : BarRow) : Bool :=
  r.symbol = symbol ∧ r.ts = ts

/-- upsert_bar: INSERT .. ON CONFLICT (symbol, ts) DO UPDATE SET close = EXCLUDED.close.
A fresh insert writes open = high = low = close = price and volume = 0. -/
def upsert_bar (db : DB) (symbol : String) (ts : Nat) (price : ℚ) : DB :=
  if db.market_bars.any (barKeyIs symbol ts) then
    { db with market_bars :=
        db.market_bars.map fun r =>
          if barKeyIs symbol ts r then { r with close := price } else r }
  else
    { db with market_bars :=
        db.market_bars ++ [⟨symbol, ts, price, price, price, price, 0⟩] }

/-- Key predicate of the unique index idx_etf_date_fund. -/
def flowKeyIs (date_s fund : String) (r : FlowRow) : Bool :=
  r.date = date_s ∧ r.fund = fund

/-- upsert_flow: INSERT .. ON CONFLICT (date, fund) DO UPDATE SET flow_musd = EXCLUDED.flow_musd. -/
def upsert_flow (db : DB) (date_s fund : String) (flow_musd : ℚ) : DB :=
  if db.etf_flows.any (flowKeyIs date_s fund) then
    { db with etf_flows :=
        db.etf_flows.map fun r =>
          if flowKeyIs date_s fund r then { r with flow_musd := flow_musd } else r }
  else
    { db with etf_flows := db.etf_flows ++ [⟨date_s, fund, flow_musd⟩] }

/-- SQL equality as used by a Postgres unique index with default NULLS
DISTINCT semantics: two values conflict only when both are non-null and
equal; a NULL never conflicts with anything. -/
def sqlEq {α : Type} [DecidableEq α] : Option α → Option α → Bool
  | some a, some b => a = b
  | _, _ => false

/-- Conflict predicate of the unique index idx_sec_unique on
(filed_at, form, company, title). -/
def filingConflicts (ts : Option Nat) (form company title : Option String)
    (r : FilingRow) : Bool :=
  sqlEq r.filed_at ts && sqlEq r.form form &&
    sqlEq r.company company && sqlEq r.title title

/-- Numeric value of a list of decimal digit characters. -/
def digitsToNat (cs : List Char) : Nat :=
  cs.foldl (fun acc c => acc * 10 + (c.toNat - 48)) 0

/-- Model of datetime.fromisoformat as used by insert_filing (after the
Z to +00:00 rewrite), restricted to the shapes exercised here:
YYYY-MM-DD, optionally followed by THH:MM:SS and an optional +00:00
offset.  Any other string fails, which insert_filing turns into a null
timestamp.  The result is an injective numeric encoding of the instant. -/
def fromisoformat (s : String) : Option Nat :=
  match s.data with
  | y1 :: y2 :: y3 :: y4 :: '-' :: m1 :: m2 :: '-' :: d1 :: d2 :: rest =>
    if [y1, y2, y3, y4, m1, m2, d1, d2].all Char.isDigit then
      let dateCode := digitsToNat [y1, y2, y3, y4, m1, m2, d1, d2]
      match rest with
      | [] => some (dateCode * 100000)
      | 'T' :: h1 :: h2 :: ':' :: n1 :: n2 :: ':' :: s1 :: s2 :: tz =>
        if [h1, h2, n1, n2, s1, s2].all Char.isDigit ∧
            (tz = [] ∨ tz = ['+', '0', '0', ':', '0', '0']) then
          some (dateCode * 100000 +
            digitsToNat [h1, h2] * 3600 + digitsToNat [n1, n2] * 60 +
            digitsToNat [s1, s2])
        else none
      | _ => none
    else none
  | _ => none

/-- Python str.replace("Z", "+00:00"): every occurrence of the single
character Z becomes the UTC offset suffix. -/
def replaceZ : List Char → List Char
  | [] => []
  | 'Z' :: rest => '+' :: '0' :: '0' :: ':' :: '0' :: '0' :: replaceZ rest
  | c :: rest => c :: replaceZ rest

/-- The timestamp insert_filing computes from its filed_at_iso argument:
falsy (absent or empty) input and parse failures both become null. -/
def parseFiledAt (filed_at_iso : Option String) : Option Nat :=
  match filed_at_iso with
  | none => none
  | some s => if s = "" then none else fromisoformat ⟨replaceZ s.data⟩

/-- insert_filing: parse filed_at, then
INSERT .. ON CONFLICT (filed_at, form, company, title) DO NOTHING. -/
def insert_filing (db : DB) (filed_at_iso form company title link : Option String) : DB :=
  let ts := parseFiledAt filed_at_iso
  if db.sec_filings.any (filingConflicts ts form company title) then db
  else { db with sec_filings := db.sec_filings ++ [⟨ts, form, company, title, link⟩] }

/-- log_alert: INSERT INTO alerts(kind, payload). -/
def log_alert (db : DB) (kind : String) (payload : AlertPayload) : DB :=
  { db with alerts := db.alerts ++ [(kind, payload)] }

/-- webhook: best-effort POST of the text; a no-op when WEBHOOK_URL is not
configured, and delivery failures are swallowed either way. -/
def webhook (cfg : Config) (db : DB) (text : String) : DB :=
  match cfg.webhookUrl with
  | none => db
  | some _ => { db with outbox := db.outbox ++ [text] }

/-- sum_flows_for_date: SELECT SUM(flow_musd) FROM etf_flows WHERE date = d
(NULL on the empty set is coerced to 0 by the caller's `or 0.0`). -/
def sum_flows_for_date (db : DB) (d : String) : ℚ :=
  ((db.etf_flows.filter fun r => r.date = d).map (·.flow_musd)).sum

/-! ## ETF flow cell parsing (farside_btc_flows) -/

/-- The decimal literal accepted by Python float(s), digit-level: optional
surrounding spaces, an optional sign, digits with at most one decimal
point (at least one digit overall).  The result is the signed integer
mantissa together with the number of fraction digits.  Exponent forms,
underscores and the inf/nan literals are out of scope of this worker's
inputs and fail. -/
def pyFloatParts (s : String) : Option (Int × Nat) :=
  let cs := ((s.data.dropWhile (· = ' ')).reverse.dropWhile (· = ' ')).reverse
  let signed : Int × List Char :=
    match cs with
    | '-' :: t => (-1, t)
    | '+' :: t => (1, t)
    | t => (1, t)
  let sign := signed.1
  let body := signed.2
  let intPart := body.takeWhile Char.isDigit
  match body.dropWhile Char.isDigit with
  | [] => if intPart = [] then none else some (sign * digitsToNat intPart, 0)
  | '.' :: fracPart =>
    if fracPart.all Char.isDigit ∧ (intPart ≠ [] ∨ fracPart ≠ []) then
      some (sign * (digitsToNat intPart * 10 ^ fracPart.length + digitsToNat fracPart),
        fracPart.length)
    else none
  | _ => none

/-- Model of Python float(s): the parsed decimal literal as a rational. -/
def pyFloat (s : String) : Option ℚ :=
  (pyFloatParts s).map fun p => (p.1 : ℚ) / (10 : ℚ) ^ p.2

/-- Strip currency/unit decoration exactly as the code does:
flow_s.replace("$","").replace("m","").replace(",","") removes every
occurrence of each of the three characters. -/
def stripFlowText (s : String) : String :=
  ⟨s.data.filter fun c => !(c = '$' || c = 'm' || c = ',')⟩

/-- float(flow_s.replace("$","").replace("m","").replace(",","")). -/
def parseFlowCell (s : String) : Option ℚ :=
  pyFloat (stripFlowText s)

/-- Python str.lower restricted to ASCII letters, which is all this
scraper's header cells use. -/
def toLowerChar (c : Char) : Char :=
  if 'A' ≤ c ∧ c ≤ 'Z' then Char.ofNat (c.toNat + 32) else c

/-- Whether pat occurs at the start of the character list. -/
def startsWith : List Char → List Char → Bool
  | [], _ => true
  | _ :: _, [] => false
  | p :: ps, c :: cs => p = c && startsWith ps cs

/-- Whether pat occurs anywhere in the character list (Python in). -/
def containsSub (pat : List Char) : List Char → Bool
  | [] => startsWith pat []
  | c :: cs => startsWith pat (c :: cs) || containsSub pat cs

/-- The header-skip test: "fund" in cols[0].lower() (substring containment). -/
def containsFund (c : String) : Bool :=
  containsSub ['f', 'u', 'n', 'd'] (c.data.map toLowerChar)

/-- One iteration of the primary parser's row loop: a tr's cell texts become
a flow row unless the row has fewer than 3 cells, is header-like, or its
flow cell fails numeric parsing (the except-continue branch). -/
def parseFlowTr : List String → Option FlowRow
  | fund :: date_s :: flow_s :: _ =>
    if containsFund fund then none
    else (parseFlowCell flow_s).map fun flow => ⟨date_s, fund, flow⟩
  | _ => none

/-- The primary parser over the first table's rows (cell-text matrix). -/
def farsidePrimaryRows (table : List (List String)) : List FlowRow :=
  table.filterMap parseFlowTr

/-- One iteration of the fallback loop over df.iloc[:, :3]: the row's first
three stringified values, same header skip, same numeric parsing. -/
def parseFallbackRow (vals : List String) : Option FlowRow :=
  match vals.take 3 with
  | [fund, date_s, flow_s] =>
    if containsFund fund then none
    else (parseFlowCell flow_s).map fun flow => ⟨date_s, fund, flow⟩
  | _ => none

/-- A table as pandas read_html returns it: a fixed column count (shape[1])
and stringified rows. -/
structure PdTable where
  ncols : Nat
  rows : List (List String)
  deriving Repr, DecidableEq

/-- The HTML page as the two parsers observe it: raw-text emptiness,
soup.find("table") as an optional cell-text matrix, and pd.read_html as an
optional table list (none when read_html raises). -/
structure HtmlDoc where
  textEmpty : Bool
  soupTable : Option (List (List String))
  pdTables : Option (List PdTable)
  deriving Repr, DecidableEq

/-- Outcome of the page fetch: a raised exception (unreachable endpoint,
timeout) or a response with a status code and parsed-view of the body. -/
inductive HttpGetResult where
  | exn
  | resp (status : Nat) (doc : HtmlDoc)
  deriving Repr, DecidableEq

/-- farside_btc_flows: fetch the page; on any exception or a non-200 or
empty response return []; otherwise primary soup parse, else the pandas
fallback on the first extracted table with at least 3 columns. -/
def farside_btc_flows (res : HttpGetResult) : List FlowRow :=
  match res with
  | .exn => []
  | .resp status doc =>
    if status ≠ 200 ∨ doc.textEmpty then []
    else
      match doc.soupTable with
      | some table => farsidePrimaryRows table
      | none =>
        match doc.pdTables with
        | none => []
        | some tables =>
          match tables.find? (fun t => 3 ≤ t.ncols) with
          | none => []
          | some t => t.rows.filterMap parseFallbackRow

/-! ## SEC filing search adapter (sec_search) -/

/-- The _source object of one full-text search hit, with the fields the
mapping reads; every field may be absent. -/
structure SecHit where
  filedAt : Option String
  formType : Option String
  companyName : Option String
  displayNames : Option (List String)
  displayTitle : Option String
  documentDescription : Option String
  link : Option String
  deriving Repr, DecidableEq

/-- A mapped search result as handed to insert_filing. -/
structure FilingItem where
  filedAt : Option String
  form : Option String
  company : Option String
  title : Option String
  link : Option String
  deriving Repr, DecidableEq

/-- Python `a or b` on optional strings: None and "" are falsy. -/
def orFalsy (a b : Option String) : Option String :=
  match a with
  | some s => if s = "" then b else some s
  | none => b

/-- (s.get("displayNames") or [s.get("companyName")])[0]: the first display
name when the list is truthy (present and nonempty), else companyName. -/
def hitCompany (h : SecHit) : Option String :=
  match h.displayNames with
  | some (x :: _) => some x
  | _ => h.companyName

/-- The constructed viewer link, null when the hit has no truthy link. -/
def hitLink (h : SecHit) : Option String :=
  match h.link with
  | some l =>
    if l = "" then none
    else some ("https://www.sec.gov/ixviewer/doc?action=display&source=content&doc=" ++ l)
  | none => none

/-- The per-hit mapping inside sec_search's loop. -/
def mapHit (h : SecHit) : FilingItem :=
  ⟨h.filedAt, h.formType, hitCompany h,
    orFalsy h.displayTitle h.documentDescription, hitLink h⟩

/-- Outcome of the search POST: a raised exception or a response with a
status code and the hits array. -/
inductive SecFetchResult where
  | exn
  | resp (status : Nat) (hits : List SecHit)
  deriving Repr, DecidableEq

/-- sec_search: on exception or non-200 return []; otherwise map each hit. -/
def sec_search (res : SecFetchResult) : List FilingItem :=
  match res with
  | .exn => []
  | .resp status hits =>
    if status ≠ 200 then [] else hits.map mapHit

/-! ## Crypto price adapter (coingecko_prices) -/

/-- Outcome of one coin's market-chart fetch.  The whole body runs inside
one try block and each upsert commits separately, so an exception raised
after some points were processed leaves those points persisted:
ok carries the full price list, failAfter the points processed before the
exception and the exception's description. -/
inductive CoinFetch where
  | ok (pts : List (Nat × ℚ))
  | failAfter (pts : List (Nat × ℚ)) (e : String)
  deriving Repr, DecidableEq

def CoinFetch.pts : CoinFetch → List (Nat × ℚ)
  | .ok pts => pts
  | .failAfter pts _ => pts

def CoinFetch.isOk : CoinFetch → Bool
  | .ok _ => true
  | .failAfter _ _ => false

/-- The display label: "BTC" if coin == "bitcoin" else "ETH". -/
def coinLabel (coin : String) : String :=
  if coin = "bitcoin" then "BTC" else "ETH"

/-- coingecko_prices: upsert one bar per processed (timestamp, price) point;
return (True, ok-message) on success, (False, error-message) on exception. -/
def coingecko_prices (coin : String) (res : CoinFetch) (db : DB) :
    DB × Bool × String :=
  let db1 := res.pts.foldl (fun d p => upsert_bar d (coinLabel coin) p.1 p.2) db
  match res with
  | .ok _ => (db1, true, "coingecko " ++ coin ++ " ok")
  | .failAfter _ e => (db1, false, "coingecko " ++ coin ++ " error: " ++ e)

/-! ## Tasks -/

/-- task_crypto: fetch bitcoin then ethereum; ok is the conjunction of the
two per-asset outcomes, the detail joins both messages. -/
def task_crypto (resB resE : CoinFetch) (db : DB) : DB × Bool × String :=
  let r1 := coingecko_prices "bitcoin" resB db
  let r2 := coingecko_prices "ethereum" resE r1.1
  (r2.1, r1.2.1 && r2.2.1, r1.2.2 ++ "; " ++ r2.2.2)

/-- Python string comparison: strict lexicographic order by code point on
the character lists. -/
def strLtB : List Char → List Char → Bool
  | [], [] => false
  | [], _ :: _ => true
  | _ :: _, [] => false
  | a :: as, b :: bs => if a < b then true else if b < a then false else strLtB as bs

/-- The lexicographically greatest element of a date list, Python's
sorted(dates)[-1]; the empty-string seed is below every date. -/
def latestDate (dates : List String) : String :=
  dates.foldl (fun a b => if strLtB a.data b.data then b else a) ""

/-- The ETF alert text; the numeric rendering abstracts the Python
one-decimal format of the f-string. -/
def etfAlertMessage (latest : String) (net : ℚ) : String :=
  "BTC ETF net flow on " ++ latest ++ ": $" ++ toString net ++ "M"

/-- task_etf_flows: upsert every fetched row; if at least one date was
touched, take the latest date of the run, sum the persisted flows for it
across all funds, and when the absolute net meets FLOW_ALERT_MUSD send the
webhook text and log an etf_net_flow alert.  Always reports ok = True. -/
def task_etf_flows (cfg : Config) (res : HttpGetResult) (db : DB) :
    DB × Bool × String :=
  let rows := farside_btc_flows res
  let db1 := rows.foldl (fun d r => upsert_flow d r.date r.fund r.flow_musd) db
  let dates := rows.map (·.date)
  let db2 :=
    if dates = [] then db1
    else
      let latest := latestDate dates
      let net := sum_flows_for_date db1 latest
      if cfg.flowAlertMusd ≤ |net| then
        log_alert (webhook cfg db1 (etfAlertMessage latest net))
          "etf_net_flow" (.etfNetFlow latest net)
      else db1
  (db2, true, "etf rows upserted: " ++ toString rows.length)

/-- task_sec: insert every mapped search item.  Always reports ok = True. -/
def task_sec (res : SecFetchResult) (db : DB) : DB × Bool × String :=
  let items := sec_search res
  let db1 := items.foldl
    (fun d it => insert_filing d it.filedAt it.form it.company it.title it.link) db
  (db1, true, "sec filings ingested: " ++ toString items.length)

/-! ## Orchestrator (the __main__ block) -/

/-- A task as the orchestrator sees it: it updates the store and either
returns an (ok, message) pair or raises with a description.  Because every
store write commits on its own, a raising task still hands back the store
state holding its already-committed writes. -/
def TaskFun : Type := DB → DB × Except String (Bool × String)

/-- The per-task failure boundary of the main loop: on success collect the
task's own (ok, msg); on an escaping exception collect
(False, "name error: description") and keep going. -/
def runTasks (tasks : List (String × TaskFun)) (db : DB) :
    DB × List (Bool × String) :=
  match tasks with
  | [] => (db, [])
  | (name, t) :: rest =>
    let r := t db
    let entry : Bool × String :=
      match r.2 with
      | .ok pair => pair
      | .error e => (false, name ++ " error: " ++ e)
    let rec' := runTasks rest r.1
    (rec'.1, entry :: rec'.2)

/-- The whole process: DATABASE_URL is read first and a falsy value (unset
or empty) is a SystemExit before the schema or any task runs; otherwise the
schema is ensured, every task runs inside the failure boundary, the summary
is logged best-effort, and the process ends with exit status 0. -/
def workerMain (databaseUrl : Option String) (tasks : List (String × TaskFun))
    (db : DB) : Nat × DB × List (Bool × String) :=
  match databaseUrl with
  | none => (1, db, [])
  | some u =>
    if u = "" then (1, db, [])
    else
      let db1 := ensure_schema db
      let r := runTasks tasks db1
      let db2 := log_alert r.1 "worker_summary" (.workerSummary r.2)
      (0, db2, r.2)

/-! ## Concrete fixtures used by witnesses -/

/-- A task that records one flow row then returns success. -/
def wtFlowOk : TaskFun :=
  fun db => (upsert_flow db "2024-01-05" "IBIT" 1, .ok (true, "etf ok"))

/-- A task that commits one bar and then raises. -/
def wtBarBoom : TaskFun :=
  fun db => (upsert_bar db "BTC" 7 2, .error "boom")

/-- A task that records one filing then returns success. -/
def wtFilingOk : TaskFun :=
  fun db => (insert_filing db none (some "8-K") (some "A") (some "T") none,
    .ok (true, "sec ok"))

/-- A fetched page whose table's flows sum to exactly 500.0. -/
def resFire : HttpGetResult :=
  .resp 200 ⟨false,
    some [["Fund", "Date", "Flow"],
          ["IBIT", "2024-01-05", "300.0"],
          ["FBTC", "2024-01-05", "200.0"]], none⟩

/-- A fetched page whose table's flows sum to 499.99. -/
def resNoFire : HttpGetResult :=
  .resp 200 ⟨false,
    some [["IBIT", "2024-01-05", "299.01"],
          ["FBTC", "2024-01-05", "200.98"]], none⟩

/-- A webhook-configured Config at the default threshold 500. -/
def cfgHook : Config := ⟨500, some "hook"⟩

/-! ## Helper lemmas -/

theorem map_eq_self_of {α : Type} (l : List α) (f : α → α)
    (h : ∀ a ∈ l, f a = a) : l.map f = l := by
  induction l with
  | nil => rfl
  | cons x xs ih =>
    simp only [List.map_cons, h x (List.mem_cons_self x xs),
      ih fun a ha => h a (List.mem_cons_of_mem x ha)]

theorem upsert_bar_bars_of_fresh (db : DB) (symbol : String) (ts : Nat) (p : ℚ)
    (h : db.market_bars.any (barKeyIs symbol ts) = false) :
    (upsert_bar db symbol ts p).market_bars =
      db.market_bars ++ [⟨symbol, ts, p, p, p, p, 0⟩] := by
  unfold upsert_bar
  rw [h]
  simp

theorem upsert_bar_bars_of_conflict (db : DB) (symbol : String) (ts : Nat) (p : ℚ)
    (h : db.market_bars.any (barKeyIs symbol ts) = true) :
    (upsert_bar db symbol ts p).market_bars =
      db.market_bars.map fun r =>
        if barKeyIs symbol ts r then { r with close := p } else r := by
  unfold upsert_bar
  rw [h]
  simp

theorem insert_filing_eq_of_conflict (db : DB)
    (iso form company title link : Option String)
    (h : db.sec_filings.any
      (filingConflicts (parseFiledAt iso) form company title) = true) :
    insert_filing db iso form company title link = db := by
  show (if db.sec_filings.any (filingConflicts (parseFiledAt iso) form company title) then db
    else { db with sec_filings :=
      db.sec_filings ++ [⟨parseFiledAt iso, form, company, title, link⟩] }) = db
  rw [h]
  simp

theorem insert_filing_eq_of_fresh (db : DB)
    (iso form company title link : Option String)
    (h : db.sec_filings.any
      (filingConflicts (parseFiledAt iso) form company title) = false) :
    insert_filing db iso form company title link =
      { db with sec_filings :=
        db.sec_filings ++ [⟨parseFiledAt iso, form, company, title, link⟩] } := by
  show (if db.sec_filings.any (filingConflicts (parseFiledAt iso) form company title) then db
    else { db with sec_filings :=
      db.sec_filings ++ [⟨parseFiledAt iso, form, company, title, link⟩] }) = _
  rw [h]
  simp

theorem upsert_flow_alerts (db : DB) (d f : String) (x : ℚ) :
    (upsert_flow db d f x).alerts = db.alerts := by
  unfold upsert_flow; split <;> rfl

theorem upsert_flow_outbox (db : DB) (d f : String) (x : ℚ) :
    (upsert_flow db d f x).outbox = db.outbox := by
  unfold upsert_flow; split <;> rfl

/-! ## Claim theorems -/

/-- C4: upserting (symbol, ts, p1) then (symbol, ts, p2) into a store with
no bar for that key leaves exactly one bar row for the key, with
close = p2 and open = high = low = p1, volume = 0, and every other
market_bars row unchanged: re-ingestion updates close only. -/
theorem upsert_bar_twice_updates_close_only (db : DB) (symbol : String)
    (ts : Nat) (p1 p2 : ℚ)
    (h : ∀ r ∈ db.market_bars, barKeyIs symbol ts r = false) :
    (upsert_bar (upsert_bar db symbol ts p1) symbol ts p2).market_bars =
      db.market_bars ++ [⟨symbol, ts, p1, p1, p1, p2, 0⟩] ∧
    (upsert_bar (upsert_bar db symbol ts p1) symbol ts p2).market_bars.filter
        (barKeyIs symbol ts) = [⟨symbol, ts, p1, p1, p1, p2, 0⟩] := by
  have hany : db.market_bars.any (barKeyIs symbol ts) = false := by
    rw [List.any_eq_false]
    intro r hr
    simp [h r hr]
  have hkey : barKeyIs symbol ts ⟨symbol, ts, p1, p1, p1, p1, 0⟩ = true := by
    simp [barKeyIs]
  have hfst := upsert_bar_bars_of_fresh db symbol ts p1 hany
  have hany2 : ((upsert_bar db symbol ts p1).market_bars.any
      (barKeyIs symbol ts)) = true := by
    rw [hfst, List.any_append]
    simp [hkey]
  have hmap : (upsert_bar (upsert_bar db symbol ts p1) symbol ts p2).market_bars =
      db.market_bars ++ [⟨symbol, ts, p1, p1, p1, p2, 0⟩] := by
    rw [upsert_bar_bars_of_conflict _ symbol ts p2 hany2, hfst, List.map_append]
    congr 1
    · exact map_eq_self_of _ _ fun r hr => by simp [h r hr]
    · simp [hkey]
  refine ⟨hmap, ?_⟩
  rw [hmap, List.filter_append]
  have hnil : db.market_bars.filter (barKeyIs symbol ts) = [] :=
    List.filter_eq_nil_iff.mpr fun r hr => by simp [h r hr]
  simp [hnil, barKeyIs]

/-- C4 witness: concrete instantiation of the double-upsert theorem. -/
theorem upsert_bar_twice_updates_close_only_witness :
    (upsert_bar (upsert_bar emptyDB "BTC" 1 2) "BTC" 1 3).market_bars =
      emptyDB.market_bars ++ [⟨"BTC", 1, 2, 2, 2, 3, 0⟩] ∧
    (upsert_bar (upsert_bar emptyDB "BTC" 1 2) "BTC" 1 3).market_bars.filter
        (barKeyIs "BTC" 1) = [⟨"BTC", 1, 2, 2, 2, 3, 0⟩] :=
  upsert_bar_twice_updates_close_only emptyDB "BTC" 1 2 3 (by simp [emptyDB])

/-- C10: when filed_at is absent or fails ISO parsing it is stored as a null
timestamp, and (with NULLS DISTINCT unique-index semantics) the row never
conflicts with any persisted row, whatever the store already holds: each
such insert_filing call appends a fresh row, so repeated runs accumulate
duplicates instead of first-write-wins deduplication. -/
theorem insert_filing_null_filed_at_appends (db : DB)
    (iso form company title link : Option String)
    (h : parseFiledAt iso = none) :
    (insert_filing db iso form company title link).sec_filings =
      db.sec_filings ++ [⟨none, form, company, title, link⟩] := by
  have hc : ∀ r : FilingRow, filingConflicts none form company title r = false := by
    intro r
    unfold filingConflicts
    cases r.filed_at <;> simp [sqlEq]
  have hany : db.sec_filings.any
      (filingConflicts (parseFiledAt iso) form company title) = false := by
    rw [h, List.any_eq_false]
    intro r hr
    simp [hc r]
  rw [insert_filing_eq_of_fresh db iso form company title link hany, h]

/-- C10 witness: a store already holding an identical null-filed_at filing
still gains a second copy on re-insertion. -/
theorem insert_filing_null_filed_at_appends_witness :
    (insert_filing
        ⟨[], [], [⟨none, some "8-K", some "ACME", some "T", some "L1"⟩], [], [], false⟩
        none (some "8-K") (some "ACME") (some "T") (some "L1")).sec_filings =
      [⟨none, some "8-K", some "ACME", some "T", some "L1"⟩,
       ⟨none, some "8-K", some "ACME", some "T", some "L1"⟩] :=
  insert_filing_null_filed_at_appends
    ⟨[], [], [⟨none, some "8-K", some "ACME", some "T", some "L1"⟩], [], [], false⟩
    none (some "8-K") (some "ACME") (some "T") (some "L1") rfl

/-- C2 counterexample: with an absent filed_at (a legal natural-key value —
the schema stores it as NULL), inserting the identical
(filed_at, form, company, title) twice with links L1 then L2 leaves TWO
persisted rows, not one row with L1 as the claim states. -/
theorem insert_filing_dedup_counterexample :
    (insert_filing
        (insert_filing emptyDB none (some "8-K") (some "ACME") (some "T") (some "L1"))
        none (some "8-K") (some "ACME") (some "T") (some "L2")).sec_filings =
      [⟨none, some "8-K", some "ACME", some "T", some "L1"⟩,
       ⟨none, some "8-K", some "ACME", some "T", some "L2"⟩] := by
  decide

/-- C2 amended: for a natural key all of whose components are non-null —
filed_at parses to a timestamp and form/company/title are present — two
insert_filing calls with that identical key, first with link l1 then l2,
leave exactly one persisted row for that key and its link is l1: the
second insert is silently ignored and changes nothing. -/
theorem insert_filing_first_write_wins (db : DB) (iso : Option String) (t0 : Nat)
    (form company title : String) (l1 l2 : Option String)
    (hts : parseFiledAt iso = some t0)
    (h : ∀ r ∈ db.sec_filings,
      filingConflicts (some t0) (some form) (some company) (some title) r = false) :
    (insert_filing (insert_filing db iso (some form) (some company) (some title) l1)
        iso (some form) (some company) (some title) l2) =
      insert_filing db iso (some form) (some company) (some title) l1 ∧
    (insert_filing (insert_filing db iso (some form) (some company) (some title) l1)
        iso (some form) (some company) (some title) l2).sec_filings =
      db.sec_filings ++ [⟨some t0, some form, some company, some title, l1⟩] ∧
    (insert_filing (insert_filing db iso (some form) (some company) (some title) l1)
        iso (some form) (some company) (some title) l2).sec_filings.filter
        (filingConflicts (some t0) (some form) (some company) (some title)) =
      [⟨some t0, some form, some company, some title, l1⟩] := by
  have hany : db.sec_filings.any
      (filingConflicts (parseFiledAt iso) (some form) (some company) (some title)) = false := by
    rw [hts, List.any_eq_false]
    intro r hr
    simp [h r hr]
  have hfst : (insert_filing db iso (some form) (some company) (some title) l1).sec_filings =
      db.sec_filings ++ [⟨some t0, some form, some company, some title, l1⟩] := by
    rw [insert_filing_eq_of_fresh db iso (some form) (some company) (some title) l1 hany, hts]
  have hkey : filingConflicts (some t0) (some form) (some company) (some title)
      ⟨some t0, some form, some company, some title, l1⟩ = true := by
    simp [filingConflicts, sqlEq]
  have hany2 : (insert_filing db iso (some form) (some company) (some title) l1).sec_filings.any
      (filingConflicts (parseFiledAt iso) (some form) (some company) (some title)) = true := by
    rw [hts, hfst, List.any_append]
    simp [hkey]
  have hsnd : (insert_filing (insert_filing db iso (some form) (some company) (some title) l1)
      iso (some form) (some company) (some title) l2) =
      insert_filing db iso (some form) (some company) (some title) l1 :=
    insert_filing_eq_of_conflict _ iso (some form) (some company) (some title) l2 hany2
  refine ⟨hsnd, ?_, ?_⟩
  · rw [hsnd, hfst]
  · rw [hsnd, hfst, List.filter_append]
    have hnil : db.sec_filings.filter
        (filingConflicts (some t0) (some form) (some company) (some title)) = [] :=
      List.filter_eq_nil_iff.mpr fun r hr => by simp [h r hr]
    simp [hnil, hkey]

/-- C2 witness: concrete first-write-wins run with a parseable filed_at. -/
theorem insert_filing_first_write_wins_witness :
    (insert_filing (insert_filing emptyDB (some "2024-01-02") (some "8-K") (some "ACME")
        (some "T") (some "L1")) (some "2024-01-02") (some "8-K") (some "ACME")
        (some "T") (some "L2")) =
      insert_filing emptyDB (some "2024-01-02") (some "8-K") (some "ACME")
        (some "T") (some "L1") ∧
    (insert_filing (insert_filing emptyDB (some "2024-01-02") (some "8-K") (some "ACME")
        (some "T") (some "L1")) (some "2024-01-02") (some "8-K") (some "ACME")
        (some "T") (some "L2")).sec_filings =
      emptyDB.sec_filings ++
        [⟨some 2024010200000, some "8-K", some "ACME", some "T", some "L1"⟩] ∧
    (insert_filing (insert_filing emptyDB (some "2024-01-02") (some "8-K") (some "ACME")
        (some "T") (some "L1")) (some "2024-01-02") (some "8-K") (some "ACME")
        (some "T") (some "L2")).sec_filings.filter
        (filingConflicts (some 2024010200000) (some "8-K") (some "ACME") (some "T")) =
      [⟨some 2024010200000, some "8-K", some "ACME", some "T", some "L1"⟩] :=
  insert_filing_first_write_wins emptyDB (some "2024-01-02") 2024010200000
    "8-K" "ACME" "T" (some "L1") (some "L2") (by decide) (by simp [emptyDB])

/-- C5: the flow-cell parser strips $ and m and commas and parses a signed
number, so "$1,234.5m" gives 1234.5 and "-$12.0m" gives -12.0; a row whose
cell still fails to parse (such as "n/a") is skipped on its own and the
rows before and after it are still processed. -/
theorem flow_cell_parsing (pre post : List (List String)) (bad : List String)
    (hbad : parseFlowTr bad = none) :
    parseFlowCell "$1,234.5m" = some (1234.5 : ℚ) ∧
    parseFlowCell "-$12.0m" = some (-12.0 : ℚ) ∧
    parseFlowTr ["GBTC", "2024-01-05", "n/a"] = none ∧
    farsidePrimaryRows (pre ++ bad :: post) =
      farsidePrimaryRows pre ++ farsidePrimaryRows post := by
  have h1 : pyFloatParts (stripFlowText "$1,234.5m") = some (12345, 1) := by decide
  have h2 : pyFloatParts (stripFlowText "-$12.0m") = some (-120, 1) := by decide
  refine ⟨?_, ?_, by decide, ?_⟩
  · rw [parseFlowCell, pyFloat, h1]
    norm_num
  · rw [parseFlowCell, pyFloat, h2]
    norm_num
  unfold farsidePrimaryRows
  rw [List.filterMap_append]
  simp [hbad]

/-- C5 witness: a concrete table whose middle row has an unparsable cell
loses only that row. -/
theorem flow_cell_parsing_witness :
    parseFlowCell "$1,234.5m" = some (1234.5 : ℚ) ∧
    parseFlowCell "-$12.0m" = some (-12.0 : ℚ) ∧
    parseFlowTr ["GBTC", "2024-01-05", "n/a"] = none ∧
    farsidePrimaryRows
        ([["IBIT", "2024-01-05", "$300.0m"]] ++
          ["GBTC", "2024-01-05", "n/a"] :: [["FBTC", "2024-01-05", "200.0"]]) =
      farsidePrimaryRows [["IBIT", "2024-01-05", "$300.0m"]] ++
        farsidePrimaryRows [["FBTC", "2024-01-05", "200.0"]] :=
  flow_cell_parsing [["IBIT", "2024-01-05", "$300.0m"]]
    [["FBTC", "2024-01-05", "200.0"]] ["GBTC", "2024-01-05", "n/a"] (by decide)

/-- Rows of at least three cells are parsed identically by the primary
tr-loop and the fallback first-three-columns loop. -/
theorem parseFallbackRow_eq_parseFlowTr (row : List String) (h : 3 ≤ row.length) :
    parseFallbackRow row = parseFlowTr row := by
  match row, h with
  | a :: b :: c :: rest, _ => rfl

/-- C8: when the primary table lookup finds no table and the fallback
tabular extraction finds a table with at least 3 columns whose rows all
have at least 3 cells, the adapter returns exactly the rows the primary
parser would produce from that same cell matrix: both passes share the
header-row skip and the numeric-parsing rule on the first three columns. -/
theorem fallback_matches_primary (doc : HtmlDoc) (tables : List PdTable)
    (t : PdTable)
    (hempty : doc.textEmpty = false)
    (hsoup : doc.soupTable = none)
    (hpd : doc.pdTables = some tables)
    (hfind : tables.find? (fun u => 3 ≤ u.ncols) = some t)
    (hrows : ∀ r ∈ t.rows, 3 ≤ r.length) :
    farside_btc_flows (.resp 200 doc) = farsidePrimaryRows t.rows := by
  simp only [farside_btc_flows, hempty, hsoup, hpd, hfind, ne_eq, not_true_eq_false,
    Bool.false_eq_true, or_self, if_false]
  exact List.filterMap_congr fun r hr => parseFallbackRow_eq_parseFlowTr r (hrows r hr)

/-- C8 witness: a page with no primary table whose first wide-enough
extracted table is recovered row for row. -/
theorem fallback_matches_primary_witness :
    farside_btc_flows (.resp 200
        ⟨false, none, some [⟨2, [["x", "y"]]⟩,
          ⟨3, [["Fund", "Date", "Flow"], ["IBIT", "2024-01-05", "$300.0m"],
               ["FBTC", "2024-01-05", "n/a"]]⟩]⟩) =
      farsidePrimaryRows [["Fund", "Date", "Flow"], ["IBIT", "2024-01-05", "$300.0m"],
        ["FBTC", "2024-01-05", "n/a"]] :=
  fallback_matches_primary
    ⟨false, none, some [⟨2, [["x", "y"]]⟩,
      ⟨3, [["Fund", "Date", "Flow"], ["IBIT", "2024-01-05", "$300.0m"],
           ["FBTC", "2024-01-05", "n/a"]]⟩]⟩
    [⟨2, [["x", "y"]]⟩,
     ⟨3, [["Fund", "Date", "Flow"], ["IBIT", "2024-01-05", "$300.0m"],
          ["FBTC", "2024-01-05", "n/a"]]⟩]
    ⟨3, [["Fund", "Date", "Flow"], ["IBIT", "2024-01-05", "$300.0m"],
         ["FBTC", "2024-01-05", "n/a"]]⟩
    rfl rfl rfl (by decide) (by decide)

/-- C9: the crypto task's ok is the conjunction of the bitcoin and the
ethereum fetch outcomes, and independently of either outcome the final
store carries every bar upserted by both assets' processed points — the
succeeding asset's bars and the failing asset's pre-exception bars are
not rolled back. -/
theorem task_crypto_ok_iff_both (resB resE : CoinFetch) (db : DB) :
    ((task_crypto resB resE db).2.1 = true ↔
      resB.isOk = true ∧ resE.isOk = true) ∧
    (task_crypto resB resE db).1 =
      resE.pts.foldl (fun d p => upsert_bar d "ETH" p.1 p.2)
        (resB.pts.foldl (fun d p => upsert_bar d "BTC" p.1 p.2) db) := by
  have hb : coinLabel "bitcoin" = "BTC" := by decide
  have he : coinLabel "ethereum" = "ETH" := by decide
  constructor
  · cases resB <;> cases resE <;>
      simp [task_crypto, coingecko_prices, CoinFetch.isOk]
  · cases resB <;> cases resE <;>
      simp [task_crypto, coingecko_prices, CoinFetch.pts, hb, he]

/-- Each orchestrated task contributes exactly one summary entry. -/
theorem runTasks_length (tasks : List (String × TaskFun)) (db : DB) :
    (runTasks tasks db).2.length = tasks.length := by
  induction tasks generalizing db with
  | nil => rfl
  | cons p rest ih =>
    obtain ⟨n, t⟩ := p
    simp [runTasks, ih]

/-- The orchestrator processes a concatenated task list sequentially,
threading the store state. -/
theorem runTasks_append (l1 l2 : List (String × TaskFun)) (db : DB) :
    runTasks (l1 ++ l2) db =
      ((runTasks l2 (runTasks l1 db).1).1,
        (runTasks l1 db).2 ++ (runTasks l2 (runTasks l1 db).1).2) := by
  induction l1 generalizing db with
  | nil => simp [runTasks]
  | cons p rest ih =>
    obtain ⟨n, t⟩ := p
    simp [runTasks, ih]

/-- C6: if the task named n raises with description e at its position in
the run, the summary still has exactly one entry per task in task order:
the entries of the earlier tasks, then (false, "n error: e"), then the
entries of the later tasks run on the raising task's (partially written,
not rolled back) store state; the final store is the one threaded through
every task. -/
theorem orchestrator_partial_failure_isolation
    (pre post : List (String × TaskFun)) (n : String) (t : TaskFun)
    (db : DB) (e : String)
    (h : (t (runTasks pre db).1).2 = Except.error e) :
    (runTasks (pre ++ (n, t) :: post) db).2 =
      (runTasks pre db).2 ++
        (false, n ++ " error: " ++ e) ::
          (runTasks post (t (runTasks pre db).1).1).2 ∧
    (runTasks (pre ++ (n, t) :: post) db).1 =
      (runTasks post (t (runTasks pre db).1).1).1 ∧
    (runTasks (pre ++ (n, t) :: post) db).2.length =
      pre.length + 1 + post.length := by
  have hstep : runTasks ((n, t) :: post) (runTasks pre db).1 =
      ((runTasks post (t (runTasks pre db).1).1).1,
        (false, n ++ " error: " ++ e) ::
          (runTasks post (t (runTasks pre db).1).1).2) := by
    simp [runTasks, h]
  refine ⟨?_, ?_, ?_⟩
  · rw [runTasks_append, hstep]
  · rw [runTasks_append, hstep]
  · rw [runTasks_append, hstep]
    simp only [List.length_append, List.length_cons, runTasks_length]
    omega

/-- C6 witness: a three-task run whose second task raises mid-write. -/
theorem orchestrator_partial_failure_isolation_witness :
    (runTasks ([("task_crypto", wtFlowOk)] ++
        ("task_etf_flows", wtBarBoom) :: [("task_sec", wtFilingOk)]) emptyDB).2 =
      (runTasks [("task_crypto", wtFlowOk)] emptyDB).2 ++
        (false, "task_etf_flows" ++ " error: " ++ "boom") ::
          (runTasks [("task_sec", wtFilingOk)]
            (wtBarBoom (runTasks [("task_crypto", wtFlowOk)] emptyDB).1).1).2 ∧
    (runTasks ([("task_crypto", wtFlowOk)] ++
        ("task_etf_flows", wtBarBoom) :: [("task_sec", wtFilingOk)]) emptyDB).1 =
      (runTasks [("task_sec", wtFilingOk)]
        (wtBarBoom (runTasks [("task_crypto", wtFlowOk)] emptyDB).1).1).1 ∧
    (runTasks ([("task_crypto", wtFlowOk)] ++
        ("task_etf_flows", wtBarBoom) :: [("task_sec", wtFilingOk)]) emptyDB).2.length =
      1 + 1 + 1 :=
  orchestrator_partial_failure_isolation
    [("task_crypto", wtFlowOk)] [("task_sec", wtFilingOk)]
    "task_etf_flows" wtBarBoom emptyDB "boom" rfl

/-- C7: the process exits 0 exactly when DATABASE_URL is configured
(present and nonempty), however many tasks failed; a missing or empty
DATABASE_URL exits non-zero before the schema is created and before any
task runs, with the store untouched and no summary entries. -/
theorem worker_exit_semantics (databaseUrl : Option String)
    (tasks : List (String × TaskFun)) (db : DB) :
    ((workerMain databaseUrl tasks db).1 = 0 ↔
      ∃ u, databaseUrl = some u ∧ u ≠ "") ∧
    ((databaseUrl = none ∨ databaseUrl = some "") →
      workerMain databaseUrl tasks db = (1, db, [])) := by
  cases databaseUrl with
  | none => simp [workerMain]
  | some u =>
    by_cases hu : u = ""
    · subst hu
      simp [workerMain]
    · simp [workerMain, hu]

/-- C7 witness: a missing DATABASE_URL aborts untouched; a configured one
exits 0 even when the only task raises. -/
theorem worker_exit_semantics_witness :
    workerMain none [("task_etf_flows", wtBarBoom)] emptyDB = (1, emptyDB, []) ∧
    (workerMain (some "postgres:db") [("task_etf_flows", wtBarBoom)] emptyDB).1 = 0 :=
  ⟨(worker_exit_semantics none [("task_etf_flows", wtBarBoom)] emptyDB).2 (Or.inl rfl),
    (worker_exit_semantics (some "postgres:db") [("task_etf_flows", wtBarBoom)]
      emptyDB).1.mpr ⟨"postgres:db", rfl, by decide⟩⟩

/-- C3 counterexample: with the endpoint unreachable (the fetch raises),
the ETF-flow task and the filing-search task do NOT report failure — both
report ok = true, contradicting the claim that every adapter task reports
a source-level failure as its own failure. -/
theorem source_failure_counterexample :
    (task_etf_flows defaultConfig .exn emptyDB).2.1 ≠ false ∧
    (task_sec .exn emptyDB).2.1 ≠ false := by
  constructor <;> decide

/-- C3 amended: a source-level failure is reported as task failure only by
the crypto task; the ETF-flow and filing-search adapters swallow an
unreachable endpoint or a non-200 status inside the adapter, return zero
rows, and their tasks report ok = true. -/
theorem source_failure_semantics (cfg : Config) (db : DB) (status : Nat)
    (doc : HtmlDoc) (hits : List SecHit) (coin : String)
    (pts : List (Nat × ℚ)) (e : String) (hstatus : status ≠ 200) :
    farside_btc_flows .exn = [] ∧
    (task_etf_flows cfg .exn db).2.1 = true ∧
    farside_btc_flows (.resp status doc) = [] ∧
    (task_etf_flows cfg (.resp status doc) db).2.1 = true ∧
    sec_search .exn = [] ∧
    sec_search (.resp status hits) = [] ∧
    (task_sec .exn db).2.1 = true ∧
    (task_sec (.resp status hits) db).2.1 = true ∧
    (coingecko_prices coin (.failAfter pts e) db).2.1 = false := by
  have hfar : farside_btc_flows (.resp status doc) = [] := by
    simp only [farside_btc_flows]
    rw [if_pos (Or.inl hstatus)]
  have hsec : sec_search (.resp status hits) = [] := by
    simp only [sec_search]
    rw [if_pos hstatus]
  exact ⟨rfl, rfl, hfar, by simp [task_etf_flows, hfar], rfl, hsec,
    rfl, by simp [task_sec, hsec, sec_search], rfl⟩

/-- C3 amended witness: concrete instantiation at an HTTP 500 response. -/
theorem source_failure_semantics_witness :
    farside_btc_flows .exn = [] ∧
    (task_etf_flows defaultConfig .exn emptyDB).2.1 = true ∧
    farside_btc_flows (.resp 500 ⟨false, none, none⟩) = [] ∧
    (task_etf_flows defaultConfig (.resp 500 ⟨false, none, none⟩) emptyDB).2.1 = true ∧
    sec_search .exn = [] ∧
    sec_search (.resp 500 []) = [] ∧
    (task_sec .exn emptyDB).2.1 = true ∧
    (task_sec (.resp 500 []) emptyDB).2.1 = true ∧
    (coingecko_prices "bitcoin" (.failAfter [] "boom") emptyDB).2.1 = false :=
  source_failure_semantics defaultConfig emptyDB 500 ⟨false, none, none⟩ []
    "bitcoin" [] "boom" (by decide)

/-! ## Lexicographic-latest lemmas for the alert evaluator -/

theorem strLtB_iff_lex (a b : List Char) :
    strLtB a b = true ↔ List.Lex (· < ·) a b := by
  induction a generalizing b with
  | nil =>
    cases b with
    | nil => simp [strLtB]
    | cons c cs => exact ⟨fun _ => List.Lex.nil, fun _ => rfl⟩
  | cons x xs ih =>
    cases b with
    | nil => simp [strLtB]
    | cons y ys =>
      rcases lt_trichotomy x y with h | rfl | h
      · simp only [strLtB, if_pos h]
        exact iff_of_true trivial (List.Lex.rel h)
      · simp only [strLtB, if_neg (lt_irrefl x)]
        rw [List.Lex.cons_iff]
        exact ih ys
      · simp only [strLtB, if_neg (asymm h), if_pos h]
        refine iff_of_false (by simp) fun hlex => ?_
        cases hlex with
        | cons h' => exact lt_irrefl _ h
        | rel h' => exact asymm h h'

theorem strLtB_iff_lt (a b : String) : strLtB a.data b.data = true ↔ a < b := by
  rw [strLtB_iff_lex, String.lt_iff_toList_lt]
  exact Iff.rfl

theorem strMax_eq (a b : String) :
    (if strLtB a.data b.data then b else a) = if a < b then b else a := by
  by_cases h : a < b
  · rw [if_pos ((strLtB_iff_lt a b).mpr h), if_pos h]
  · rw [if_neg fun hb => h ((strLtB_iff_lt a b).mp hb), if_neg h]

theorem latestDate_eq (dates : List String) :
    latestDate dates = dates.foldl (fun a b => if a < b then b else a) "" := by
  unfold latestDate
  congr 1
  funext a b
  exact strMax_eq a b

theorem le_foldl_max (l : List String) (a : String) :
    a ≤ l.foldl (fun x y => if x < y then y else x) a := by
  induction l generalizing a with
  | nil => exact le_refl a
  | cons b t ih =>
    simp only [List.foldl_cons]
    by_cases h : a < b
    · rw [if_pos h]
      exact le_trans (le_of_lt h) (ih b)
    · rw [if_neg h]
      exact ih a

theorem mem_le_foldl_max : ∀ (l : List String) (a d : String), d ∈ l →
    d ≤ l.foldl (fun x y => if x < y then y else x) a
  | [], _, d, hd => absurd hd (List.not_mem_nil d)
  | b :: t, a, d, hd => by
    simp only [List.foldl_cons]
    rcases List.mem_cons.mp hd with rfl | hmem
    · by_cases h : a < d
      · rw [if_pos h]
        exact le_foldl_max t d
      · rw [if_neg h]
        exact le_trans (le_of_not_lt h) (le_foldl_max t a)
    · by_cases h : a < b
      · rw [if_pos h]
        exact mem_le_foldl_max t b d hmem
      · rw [if_neg h]
        exact mem_le_foldl_max t a d hmem

theorem foldl_max_mem_or : ∀ (l : List String) (a : String),
    l.foldl (fun x y => if x < y then y else x) a ∈ l ∨
      l.foldl (fun x y => if x < y then y else x) a = a
  | [], _ => Or.inr rfl
  | b :: t, a => by
    simp only [List.foldl_cons]
    by_cases h : a < b
    · rw [if_pos h]
      rcases foldl_max_mem_or t b with hm | he
      · exact Or.inl (List.mem_cons_of_mem _ hm)
      · exact Or.inl (by rw [he]; exact List.mem_cons_self _ _)
    · rw [if_neg h]
      rcases foldl_max_mem_or t a with hm | he
      · exact Or.inl (List.mem_cons_of_mem _ hm)
      · exact Or.inr he

theorem empty_string_le (d : String) : "" ≤ d :=
  String.le_iff_toList_le.mpr List.nil_le

theorem latestDate_mem (dates : List String) (h : dates ≠ []) :
    latestDate dates ∈ dates := by
  rw [latestDate_eq]
  rcases foldl_max_mem_or dates "" with hm | he
  · exact hm
  · cases dates with
    | nil => exact absurd rfl h
    | cons d rest =>
      have hd : d ≤ (d :: rest).foldl (fun x y => if x < y then y else x) "" :=
        mem_le_foldl_max _ "" d (List.mem_cons_self d rest)
      rw [he] at hd
      have hde : d = "" := le_antisymm hd (empty_string_le d)
      rw [he, ← hde]
      exact List.mem_cons_self d rest

theorem latestDate_isMax (dates : List String) (d : String) (hd : d ∈ dates) :
    d ≤ latestDate dates := by
  rw [latestDate_eq]
  exact mem_le_foldl_max dates "" d hd

/-! ## Frame lemmas for the flow-upsert loop and the alert writers -/

theorem foldl_upsert_flow_alerts (rows : List FlowRow) (db : DB) :
    (rows.foldl (fun d r => upsert_flow d r.date r.fund r.flow_musd) db).alerts =
      db.alerts := by
  induction rows generalizing db with
  | nil => rfl
  | cons r rest ih => rw [List.foldl_cons, ih, upsert_flow_alerts]

theorem foldl_upsert_flow_outbox (rows : List FlowRow) (db : DB) :
    (rows.foldl (fun d r => upsert_flow d r.date r.fund r.flow_musd) db).outbox =
      db.outbox := by
  induction rows generalizing db with
  | nil => rfl
  | cons r rest ih => rw [List.foldl_cons, ih, upsert_flow_outbox]

theorem webhook_alerts (cfg : Config) (db : DB) (t : String) :
    (webhook cfg db t).alerts = db.alerts := by
  unfold webhook
  cases cfg.webhookUrl <;> rfl

theorem webhook_outbox (cfg : Config) (db : DB) (t : String) :
    (webhook cfg db t).outbox =
      if cfg.webhookUrl.isSome then db.outbox ++ [t] else db.outbox := by
  unfold webhook
  cases cfg.webhookUrl <;> rfl

/-! ## Branch characterizations of the ETF-flow task -/

theorem task_etf_flows_of_no_rows (cfg : Config) (res : HttpGetResult) (db : DB)
    (h : farside_btc_flows res = []) :
    (task_etf_flows cfg res db).1 = db := by
  simp [task_etf_flows, h]

theorem task_etf_flows_of_fire (cfg : Config) (res : HttpGetResult) (db : DB)
    (hne : (farside_btc_flows res).map (·.date) ≠ [])
    (hth : cfg.flowAlertMusd ≤
      |sum_flows_for_date
        ((farside_btc_flows res).foldl
          (fun d r => upsert_flow d r.date r.fund r.flow_musd) db)
        (latestDate ((farside_btc_flows res).map (·.date)))|) :
    (task_etf_flows cfg res db).1 =
      log_alert
        (webhook cfg
          ((farside_btc_flows res).foldl
            (fun d r => upsert_flow d r.date r.fund r.flow_musd) db)
          (etfAlertMessage (latestDate ((farside_btc_flows res).map (·.date)))
            (sum_flows_for_date
              ((farside_btc_flows res).foldl
                (fun d r => upsert_flow d r.date r.fund r.flow_musd) db)
              (latestDate ((farside_btc_flows res).map (·.date))))))
        "etf_net_flow"
        (.etfNetFlow (latestDate ((farside_btc_flows res).map (·.date)))
          (sum_flows_for_date
            ((farside_btc_flows res).foldl
              (fun d r => upsert_flow d r.date r.fund r.flow_musd) db)
            (latestDate ((farside_btc_flows res).map (·.date))))) := by
  simp only [task_etf_flows]
  rw [if_neg hne, if_pos hth]

theorem task_etf_flows_of_quiet (cfg : Config) (res : HttpGetResult) (db : DB)
    (hne : (farside_btc_flows res).map (·.date) ≠ [])
    (hth : |sum_flows_for_date
        ((farside_btc_flows res).foldl
          (fun d r => upsert_flow d r.date r.fund r.flow_musd) db)
        (latestDate ((farside_btc_flows res).map (·.date)))| < cfg.flowAlertMusd) :
    (task_etf_flows cfg res db).1 =
      (farside_btc_flows res).foldl
        (fun d r => upsert_flow d r.date r.fund r.flow_musd) db := by
  simp only [task_etf_flows]
  rw [if_neg hne, if_neg (not_le.mpr hth)]

/-- C1: the alert path of the ETF-flow task runs exactly when the run
observed at least one flow row.  With zero rows the task leaves the store
untouched (no alert, no notification, nothing persisted).  With at least
one row it selects the lexicographically latest of the dates touched this
run (a touched date that bounds every touched date from above), sums the
flows of ALL persisted rows for that date — the pre-existing rows
included — and fires exactly when the absolute net meets the configured
threshold: firing appends the etf_net_flow AlertRecord carrying that date
and net, and hands the webhook the formatted text (delivered only when a
webhook is configured); below the threshold nothing is alerted or sent. -/
theorem etf_alert_evaluation (cfg : Config) (res : HttpGetResult) (db : DB) :
    let rows := farside_btc_flows res
    let persisted := rows.foldl (fun d r => upsert_flow d r.date r.fund r.flow_musd) db
    let latest := latestDate (rows.map (·.date))
    let net := sum_flows_for_date persisted latest
    (rows = [] → (task_etf_flows cfg res db).1 = db) ∧
    (rows ≠ [] →
      latest ∈ rows.map (·.date) ∧
      (∀ d ∈ rows.map (·.date), d ≤ latest) ∧
      (cfg.flowAlertMusd ≤ |net| →
        (task_etf_flows cfg res db).1.alerts =
          db.alerts ++ [("etf_net_flow", .etfNetFlow latest net)] ∧
        (task_etf_flows cfg res db).1.outbox =
          (if cfg.webhookUrl.isSome
            then db.outbox ++ [etfAlertMessage latest net] else db.outbox)) ∧
      (|net| < cfg.flowAlertMusd →
        (task_etf_flows cfg res db).1 = persisted ∧
        (task_etf_flows cfg res db).1.alerts = db.alerts ∧
        (task_etf_flows cfg res db).1.outbox = db.outbox)) := by
  intro rows persisted latest net
  constructor
  · intro hnil
    exact task_etf_flows_of_no_rows cfg res db hnil
  · intro hne
    have hne' : rows.map (·.date) ≠ [] := by
      simpa using hne
    refine ⟨latestDate_mem _ hne', fun d hd => latestDate_isMax _ d hd, ?_, ?_⟩
    · intro hth
      have hrun := task_etf_flows_of_fire cfg res db hne' hth
      constructor
      · rw [hrun]
        show (webhook cfg persisted (etfAlertMessage latest net)).alerts ++ _ = _
        rw [webhook_alerts, foldl_upsert_flow_alerts]
      · rw [hrun]
        show (webhook cfg persisted (etfAlertMessage latest net)).outbox = _
        rw [webhook_outbox, foldl_upsert_flow_outbox]
    · intro hth
      have hrun := task_etf_flows_of_quiet cfg res db hne' hth
      exact ⟨hrun, by rw [hrun]; exact foldl_upsert_flow_alerts rows db,
        by rw [hrun]; exact foldl_upsert_flow_outbox rows db⟩

/-- C1 witness: at the default threshold 500 with a webhook configured, a
run whose flows sum to exactly 500.0 fires (alert row plus notification)
and a run whose flows sum to 499.99 does not. -/
theorem etf_alert_evaluation_witness :
    (task_etf_flows cfgHook resFire emptyDB).1.alerts =
      [("etf_net_flow", AlertPayload.etfNetFlow "2024-01-05" 500)] ∧
    (task_etf_flows cfgHook resFire emptyDB).1.outbox =
      [etfAlertMessage "2024-01-05" 500] ∧
    (task_etf_flows cfgHook resNoFire emptyDB).1.alerts = [] ∧
    (task_etf_flows cfgHook resNoFire emptyDB).1.outbox = [] := by
  have h300 : parseFlowCell "300.0" = some (300 : ℚ) := by
    have h : pyFloatParts (stripFlowText "300.0") = some (3000, 1) := by decide
    simp only [parseFlowCell, pyFloat, h, Option.map_some']
    norm_num
  have h200 : parseFlowCell "200.0" = some (200 : ℚ) := by
    have h : pyFloatParts (stripFlowText "200.0") = some (2000, 1) := by decide
    simp only [parseFlowCell, pyFloat, h, Option.map_some']
    norm_num
  have h29901 : parseFlowCell "299.01" = some (299.01 : ℚ) := by
    have h : pyFloatParts (stripFlowText "299.01") = some (29901, 2) := by decide
    simp only [parseFlowCell, pyFloat, h, Option.map_some']
    norm_num
  have h20098 : parseFlowCell "200.98" = some (200.98 : ℚ) := by
    have h : pyFloatParts (stripFlowText "200.98") = some (20098, 2) := by decide
    simp only [parseFlowCell, pyFloat, h, Option.map_some']
    norm_num
  have hH : containsFund "Fund" = true := by decide
  have hI : containsFund "IBIT" = false := by decide
  have hF : containsFund "FBTC" = false := by decide
  have hrowsF : farside_btc_flows resFire =
      [⟨"2024-01-05", "IBIT", 300⟩, ⟨"2024-01-05", "FBTC", 200⟩] := by
    simp [resFire, farside_btc_flows, farsidePrimaryRows, parseFlowTr,
      hH, hI, hF, h300, h200]
  have hrowsN : farside_btc_flows resNoFire =
      [⟨"2024-01-05", "IBIT", 299.01⟩, ⟨"2024-01-05", "FBTC", 200.98⟩] := by
    simp [resNoFire, farside_btc_flows, farsidePrimaryRows, parseFlowTr,
      hI, hF, h29901, h20098]
  have hlatestF : latestDate ((farside_btc_flows resFire).map (·.date)) =
      "2024-01-05" := by
    rw [hrowsF]
    decide
  have hlatestN : latestDate ((farside_btc_flows resNoFire).map (·.date)) =
      "2024-01-05" := by
    rw [hrowsN]
    decide
  have hnetF : sum_flows_for_date
      ((farside_btc_flows resFire).foldl
        (fun d r => upsert_flow d r.date r.fund r.flow_musd) emptyDB)
      "2024-01-05" = 500 := by
    rw [hrowsF]
    simp [upsert_flow, flowKeyIs, emptyDB, sum_flows_for_date]
    norm_num
  have hnetN : sum_flows_for_date
      ((farside_btc_flows resNoFire).foldl
        (fun d r => upsert_flow d r.date r.fund r.flow_musd) emptyDB)
      "2024-01-05" = 499.99 := by
    rw [hrowsN]
    simp [upsert_flow, flowKeyIs, emptyDB, sum_flows_for_date]
    norm_num
  have hneF : farside_btc_flows resFire ≠ [] := by
    rw [hrowsF]
    simp
  have hneN : farside_btc_flows resNoFire ≠ [] := by
    rw [hrowsN]
    simp
  have hthF : cfgHook.flowAlertMusd ≤
      |sum_flows_for_date
        ((farside_btc_flows resFire).foldl
          (fun d r => upsert_flow d r.date r.fund r.flow_musd) emptyDB)
        (latestDate ((farside_btc_flows resFire).map (·.date)))| := by
    rw [hlatestF, hnetF]
    simp only [cfgHook]
    norm_num
  have hthN : |sum_flows_for_date
        ((farside_btc_flows resNoFire).foldl
          (fun d r => upsert_flow d r.date r.fund r.flow_musd) emptyDB)
        (latestDate ((farside_btc_flows resNoFire).map (·.date)))| <
      cfgHook.flowAlertMusd := by
    have habs : |(499.99 : ℚ)| = 499.99 := abs_of_nonneg (by norm_num)
    rw [hlatestN, hnetN, habs]
    simp only [cfgHook]
    norm_num
  obtain ⟨ha, hb⟩ := ((etf_alert_evaluation cfgHook resFire emptyDB).2 hneF).2.2.1 hthF
  obtain ⟨-, ha2, hb2⟩ :=
    ((etf_alert_evaluation cfgHook resNoFire emptyDB).2 hneN).2.2.2 hthN
  rw [hlatestF, hnetF] at ha hb
  simp only [emptyDB, cfgHook, List.nil_append, Option.isSome_some, if_true] at ha hb
  simp only [emptyDB] at ha2 hb2
  exact ⟨ha, hb, ha2, hb2⟩

end MarketWorker
